import Mathlib

/-!
Verification of the finEQUITY recurring-subscriptions front end.

The development shallowly embeds the two logic-bearing pieces of the
repository: the stream normalizer (the toRecurringItems function of the
recurring-data formatter) and the cache-then-fetch decision engine of the
LinkPage component (readCache, writeCache, fetchFromApi and the activation
effect), together with the conditional-rendering function of LinkPage.

Conventions used throughout the embedding:
- a JavaScript value that may be absent (undefined or null) is an Option;
- JavaScript numbers are embedded as rationals (the code only selects and
  copies numbers, it never does arithmetic on them);
- truthiness of the JavaScript values that the code actually tests is made
  explicit per type (a string is truthy iff non-empty, a boolean iff true,
  an absent value is falsy, an object or array is always truthy);
- the stable Array.prototype.sort of the source (stable per the ECMAScript
  specification) is embedded as a stable insertion sort driven by the very
  comparator of the source, and localeCompare on ISO-8601 date strings is
  embedded as the lexicographic order on strings.
-/

namespace FinEquity

/-! ## Raw payload model (input of the formatter)

Shapes taken from the wire contract documented in the formatter header:
each stream may carry account_id, average_amount.amount, last_amount.amount,
merchant_name, description, frequency, last_date,
personal_finance_category.detailed, predicted_next_date and is_active. -/

/-- Nested amount object of a raw stream: average_amount or last_amount. -/
structure AmountObj where
  amount : Option ℚ
deriving DecidableEq

/-- Nested personal_finance_category object of a raw stream. -/
structure CategoryObj where
  detailed : Option String
deriving DecidableEq

/-- One raw Plaid recurring stream, as consumed by the formatter. -/
structure RawStream where
  account_id : Option String
  average_amount : Option AmountObj
  last_amount : Option AmountObj
  merchant_name : Option String
  description : Option String
  frequency : Option String
  last_date : Option String
  personal_finance_category : Option CategoryObj
  predicted_next_date : Option String
  is_active : Option Bool
deriving DecidableEq

/-- The raw payload argument of toRecurringItems. It is either absent
(undefined, null or another falsy value, so that the source expression
(resp or default) substitutes the default object), a truthy non-object
primitive (property access yields undefined), or an object whose two
stream lists may each be present or missing. -/
inductive RawResp where
  | absent
  | prim
  | obj (inflow_streams : Option (List RawStream)) (outflow_streams : Option (List RawStream))
deriving DecidableEq

/-! ## Normalized item model (output of the formatter) -/

/-- Normalized nested amount: always carries a number. -/
structure NormAmount where
  amount : ℚ
deriving DecidableEq

/-- Normalized nested category object. -/
structure NormCategory where
  detailed : Option String
deriving DecidableEq

/-- A normalized, display-ready recurring item. -/
structure RecurringItem where
  account_id : Option String
  average_amount : NormAmount
  description : String
  frequency : Option String
  last_date : Option String
  personal_finance_category : NormCategory
  predicted_next_date : Option String
deriving DecidableEq

/-! ## The formatter (toRecurringItems of the recurring-data formatter) -/

/-- Embeds the source pattern (x or null): a missing or empty string
becomes null, any other string is passed through. -/
def orNull : Option String → Option String
  | none => none
  | some s => if s = "" then none else some s

/-- Embeds the source fallback (s.description or empty string). -/
def fallbackDesc (s : RawStream) : String :=
  match s.description with
  | none => ""
  | some d => d

/-- Embeds the description derivation: prefer merchant_name when present
and non-blank after trimming, else fall back to the raw description. -/
def descOf (s : RawStream) : String :=
  match s.merchant_name with
  | some m => if m.trim = "" then fallbackDesc s else m
  | none => fallbackDesc s

/-- Embeds the amount derivation of pickFields: prefer
average_amount.amount, else last_amount.amount, else 0 (the two nullish
coalescing steps of the source). -/
def rawAmount (s : RawStream) : ℚ :=
  match s.average_amount.bind AmountObj.amount with
  | some q => q
  | none =>
    match s.last_amount.bind AmountObj.amount with
    | some q => q
    | none => 0

/-- Embeds pickFields: project one raw stream to a normalized item. -/
def pickFields (s : RawStream) : RecurringItem :=
  { account_id := s.account_id
    average_amount := { amount := rawAmount s }
    description := descOf s
    frequency := orNull s.frequency
    last_date := orNull s.last_date
    personal_finance_category :=
      { detailed :=
          match s.personal_finance_category with
          | some c => orNull c.detailed
          | none => none }
    predicted_next_date := orNull s.predicted_next_date }

/-- Truthiness of the is_active flag as tested by the filter predicate of
the source: a stream passes iff the flag is present and true. -/
def isActiveTruthy (s : RawStream) : Bool :=
  s.is_active.getD false

/-- The inflow_streams field of the guarded payload expression
(resp or default object with two empty lists) of the source. -/
def streamsInflow : RawResp → Option (List RawStream)
  | .absent => some []
  | .prim => none
  | .obj i _ => i

/-- The outflow_streams field of the guarded payload expression. -/
def streamsOutflow : RawResp → Option (List RawStream)
  | .absent => some []
  | .prim => none
  | .obj _ o => o

/-- Embeds the helper active of the source: (arr or empty).filter on the
activity flag. -/
def active (arr : Option (List RawStream)) : List RawStream :=
  (arr.getD []).filter isActiveTruthy

/-- The inflow list the formatter effectively iterates, used to state
membership facts about the merge. -/
def inflowArr (resp : RawResp) : List RawStream :=
  (streamsInflow resp).getD []

/-- The outflow list the formatter effectively iterates. -/
def outflowArr (resp : RawResp) : List RawStream :=
  (streamsOutflow resp).getD []

/-- Embeds the combined array of the source: active inflow streams mapped
through pickFields, followed by active outflow streams mapped through
pickFields. -/
def combinedItems (resp : RawResp) : List RecurringItem :=
  (active (streamsInflow resp)).map pickFields
    ++ (active (streamsOutflow resp)).map pickFields

/-- The sort key as the comparator reads it: the source first replaces a
missing date by the empty string and then treats the empty string as
missing, so a present-but-empty date is identified with an absent one. -/
def jsKey : Option String → Option String
  | none => none
  | some s => if s = "" then none else some s

/-- The less-or-equal relation induced by the comparator of the source on
already-normalized keys: both missing compare equal, a missing key goes
after any present key, two present keys compare lexicographically. -/
def optStrLe : Option String → Option String → Bool
  | none, none => true
  | none, some _ => false
  | some _, none => true
  | some x, some y => decide (x ≤ y)

/-- The comparator of the source, as the induced less-or-equal on items:
itemLe a b is true iff the comparator does not require a to come after b. -/
def itemLe (a b : RecurringItem) : Bool :=
  optStrLe (jsKey a.predicted_next_date) (jsKey b.predicted_next_date)

/-- Stable insertion of an item into a list sorted by the comparator. -/
def insertItem (x : RecurringItem) : List RecurringItem → List RecurringItem
  | [] => [x]
  | y :: ys => if itemLe x y = true then x :: y :: ys else y :: insertItem x ys

/-- The stable sort of the source (Array.prototype.sort with the
predicted-next-date comparator), embedded as stable insertion sort. -/
def sortItems : List RecurringItem → List RecurringItem
  | [] => []
  | x :: xs => insertItem x (sortItems xs)

/-- Embeds toRecurringItems of the canonical merge-both formatter: filter
the active streams of both lists, project them, and sort by
predicted_next_date with missing dates last. -/
def toRecurringItems (resp : RawResp) : List RecurringItem :=
  sortItems (combinedItems resp)

/-- Embeds the outflow-only variant of toRecurringItems found in the
repository: it guards the payload, considers only outflow_streams, and
otherwise derives and sorts fields identically. -/
def toRecurringItemsOutflowOnly (resp : RawResp) : List RecurringItem :=
  sortItems
    (((match resp with
        | .obj _ (some l) => l
        | _ => []).filter isActiveTruthy).map pickFields)

/-- The outflow-only variant never looks at the inflow list. -/
theorem toRecurringItemsOutflowOnly_ignores_inflow
    (i i' o : Option (List RawStream)) :
    toRecurringItemsOutflowOnly (RawResp.obj i o)
      = toRecurringItemsOutflowOnly (RawResp.obj i' o) := by
  cases o <;> rfl

/-! ## Local cache store (readCache and writeCache of LinkPage) -/

/-- The items field of a parsed cache slot, as the validation of readCache
distinguishes it: absent or falsy, truthy but not an array (rejected by
the Array.isArray test), or an actual array of items. -/
inductive StoredItems where
  | missing
  | notArray
  | arr (items : List RecurringItem)
deriving DecidableEq

/-- The ts field of a parsed cache slot, as readCache observes it. A
JSON-parsed value here can be absent (or null), a number, or a
non-numeric value (string, boolean, object, array). The source makes
exactly two observations of it: the truthiness tested by the validation
guard, and the number the age subtraction coerces it to. The embedding
records both: for a non-numeric value, truthy carries its truthiness and
coerced its numeric coercion, with none embedding NaN (on which the
strict greater-than age test of the source is always false). Date.now()
yields integral milliseconds, so numeric timestamps are integers. -/
inductive JsTs where
  | missing
  | num (t : Int)
  | nonNum (truthy : Bool) (coerced : Option Int)
deriving DecidableEq

/-- One stored cache slot as readCache sees it after JSON.parse: either
the parse throws (corrupt serialized data, recovered by the catch), or a
parsed record carrying an items field and a ts field. -/
inductive StoredVal where
  | corrupt
  | record (items : StoredItems) (ts : JsTs)
deriving DecidableEq

/-- The browser key-value storage, restricted to the slots the cache
touches: none embeds a missing slot (getItem yields null). -/
def CacheStore : Type := String → Option StoredVal

/-- Embeds cacheKey: the fixed namespace string concatenated with the
user identity. -/
def cacheKey (uid : String) : String := "recurring_cache_v1:" ++ uid

/-- Embeds CACHE_TTL_MS of LinkPage: twelve hours in milliseconds. -/
def CACHE_TTL_MS : Int := 1000 * 60 * 60 * 12

/-- Truthiness of the ts field, as the validation guard of readCache
tests it: absent or null is falsy, a number is truthy iff nonzero, any
other value carries its own truthiness. -/
def tsTruthy : JsTs → Bool
  | .missing => false
  | .num t => decide (t ≠ 0)
  | .nonNum b _ => b

/-- The expiry test of readCache on the ts field: the source computes
(now minus ts) with numeric coercion of ts and compares it strictly
against the TTL; when the coercion yields NaN the comparison is false,
so such an entry never counts as expired. -/
def tsExpired (now : Int) : JsTs → Bool
  | .missing => false
  | .num t => decide (CACHE_TTL_MS < now - t)
  | .nonNum _ (some t) => decide (CACHE_TTL_MS < now - t)
  | .nonNum _ none => false

/-- Embeds readCache: look the slot up, treat a missing slot, a parse
failure, a falsy or non-array items field, or a falsy ts field as a miss,
treat an entry whose coerced age strictly exceeds the TTL as expired, and
otherwise return the stored items. The time now stands for the Date.now()
call of the source. -/
def readCache (st : CacheStore) (now : Int) (uid : String) :
    Option (List RecurringItem) :=
  match st (cacheKey uid) with
  | none => none
  | some .corrupt => none
  | some (.record items ts) =>
    match items with
    | .arr l =>
      if tsTruthy ts = false then none
      else if tsExpired now ts = true then none
      else some l
    | _ => none

/-- Embeds writeCache: overwrite the slot of the identity with a record
carrying the current time and the given items. -/
def writeCache (st : CacheStore) (uid : String) (now : Int)
    (items : List RecurringItem) : CacheStore :=
  fun k => if k = cacheKey uid then some (.record (.arr items) (.num now)) else st k

/-- A stored slot that readCache accepts at time now: a parsed record
with an array items field and a truthy ts field that the expiry test does
not reject (a nonzero numeric timestamp within the TTL, or a truthy
non-numeric timestamp whose coerced age is within the TTL or is NaN).
Used to state the corrected cache-read contract. -/
def validFreshEntry (v : StoredVal) (now : Int) : Bool :=
  match v with
  | .record (.arr _) ts => tsTruthy ts && !tsExpired now ts
  | _ => false

/-! ## Page controller (LinkPage activation effect and render) -/

/-- The component state of LinkPage: the four state hooks. -/
structure PageState where
  linkToken : Option String
  message : String
  loading : Bool
  subs : List RecurringItem
deriving DecidableEq

/-- The initial component state: no token, empty message, loading, no
items. -/
def initialState : PageState :=
  { linkToken := none, message := "", loading := true, subs := [] }

/-- Truthiness of an optional string as LinkPage tests it (the user
identity from the query string and the link token are both tested this
way): present and non-empty. -/
def strTruthy : Option String → Bool
  | none => false
  | some s => s ≠ ""

/-- Resolution of the retrieve network call of fetchFromApi: a payload
tagged recurring_data, a payload tagged link_token (whose token field may
itself be missing), a payload with an unrecognized tag, or a transport
failure (network error, non-2xx status or unparseable body, all landing
in the catch). -/
inductive FetchResult where
  | recurringData (payload : RawResp)
  | linkTokenTag (token : Option String)
  | otherTag
  | transportError
deriving DecidableEq

/-- Embeds fetchFromApi: guard on the identity, then update state and
cache according to the resolution of the retrieve call. Returns the
component state and the cache store after the call completes. -/
def fetchFromApi (uid : Option String) (now : Int) (st : CacheStore)
    (s : PageState) (net : FetchResult) : PageState × CacheStore :=
  if strTruthy uid = false then (s, st)
  else
    match net with
    | .recurringData payload =>
      let items := toRecurringItems payload
      ({ s with
          subs := items
          linkToken := none
          message := if items.length ≠ 0 then "" else "No recurring transactions found."
          loading := false },
        writeCache st (uid.getD "") now items)
    | .linkTokenTag tok =>
      ({ s with linkToken := tok, message := "", loading := false }, st)
    | .otherTag =>
      ({ s with message := "No data returned.", loading := false }, st)
    | .transportError =>
      ({ s with message := "Error retrieving data. Please try again.", loading := false }, st)

/-- Everything one page activation produces: the final component state,
the cache store after the activation, whether readCache was invoked, and
whether the retrieve network call was made. -/
structure ActivationOutcome where
  state : PageState
  store : CacheStore
  cacheRead : Bool
  fetched : Bool

/-- Embeds the activation effect of LinkPage: bail out on a missing
identity, otherwise serve a fresh non-empty cached list and skip the
network, and otherwise fetch once. -/
def activate (uid : Option String) (now : Int) (st : CacheStore)
    (net : FetchResult) : ActivationOutcome :=
  if strTruthy uid = false then
    { state := { initialState with loading := false }
      store := st, cacheRead := false, fetched := false }
  else
    let fetchOutcome :=
      let r := fetchFromApi uid now st initialState net
      { state := r.1, store := r.2, cacheRead := true, fetched := true }
    match readCache st now (uid.getD "") with
    | some l =>
      if l.length = 0 then fetchOutcome
      else
        { state := { initialState with
            subs := l, linkToken := none, message := "", loading := false }
          store := st, cacheRead := true, fetched := false }
    | none => fetchOutcome

/-- What LinkPage renders below the header. -/
inductive Rendered where
  | loader
  | subscriptions (items : List RecurringItem)
  | connectUI (token : String)
  | messageBox (text : String)
deriving DecidableEq

/-- Embeds the conditional rendering of LinkPage: the loader while
loading, else the subscriptions grid when items are present, else the
connect UI when a truthy link token is present, else the message box with
the stored message or the default text. -/
def render (s : PageState) : Rendered :=
  if s.loading then .loader
  else if s.subs.length > 0 then .subscriptions s.subs
  else if strTruthy s.linkToken then .connectUI (s.linkToken.getD "")
  else .messageBox (if s.message = "" then "Ready." else s.message)

/-! ## Order-theoretic facts about the comparator -/

/-- The comparator relation is reflexive. -/
theorem optStrLe_refl (a : Option String) : optStrLe a a = true := by
  cases a with
  | none => rfl
  | some x => simp [optStrLe]

/-- The comparator relation is total. -/
theorem optStrLe_total (a b : Option String) :
    optStrLe a b = true ∨ optStrLe b a = true := by
  cases a <;> cases b <;> simp [optStrLe]
  exact le_total _ _

/-- The comparator relation is transitive. -/
theorem optStrLe_trans {a b c : Option String} (h1 : optStrLe a b = true)
    (h2 : optStrLe b c = true) : optStrLe a c = true := by
  cases a <;> cases b <;> cases c <;> simp_all [optStrLe]
  exact le_trans h1 h2

/-- The induced item relation is total. -/
theorem itemLe_total (a b : RecurringItem) :
    itemLe a b = true ∨ itemLe b a = true :=
  optStrLe_total _ _

/-- The induced item relation is transitive. -/
theorem itemLe_trans {a b c : RecurringItem} (h1 : itemLe a b = true)
    (h2 : itemLe b c = true) : itemLe a c = true :=
  optStrLe_trans h1 h2

/-- Items with the same date key are comparator ties, in both directions. -/
theorem itemLe_of_key_eq {a b : RecurringItem}
    (h : a.predicted_next_date = b.predicted_next_date) : itemLe a b = true := by
  unfold itemLe
  rw [h]
  exact optStrLe_refl _

/-! ## The insertion sort is a permutation, sorts, and is stable -/

/-- Inserting an item permutes consing it in front. -/
theorem insertItem_perm (x : RecurringItem) (l : List RecurringItem) :
    List.Perm (insertItem x l) (x :: l) := by
  induction l with
  | nil => exact List.Perm.refl _
  | cons y ys ih =>
    rw [insertItem]
    by_cases h : itemLe x y = true
    · rw [if_pos h]
    · rw [if_neg h]
      exact List.Perm.trans (ih.cons y) (List.Perm.swap x y ys)

/-- The sort permutes its input. -/
theorem sortItems_perm (l : List RecurringItem) :
    List.Perm (sortItems l) l := by
  induction l with
  | nil => exact List.Perm.refl _
  | cons x xs ih =>
    exact List.Perm.trans (insertItem_perm x (sortItems xs)) (ih.cons x)

/-- Inserting into a comparator-sorted list keeps it sorted. -/
theorem pairwise_insertItem (x : RecurringItem) (l : List RecurringItem)
    (h : l.Pairwise fun a b => itemLe a b = true) :
    (insertItem x l).Pairwise fun a b => itemLe a b = true := by
  induction l with
  | nil => simp [insertItem]
  | cons y ys ih =>
    rw [List.pairwise_cons] at h
    obtain ⟨hy, hys⟩ := h
    rw [insertItem]
    by_cases hxy : itemLe x y = true
    · rw [if_pos hxy]
      refine List.Pairwise.cons ?_ (List.Pairwise.cons hy hys)
      intro z hz
      rcases List.mem_cons.mp hz with rfl | hz2
      · exact hxy
      · exact itemLe_trans hxy (hy z hz2)
    · rw [if_neg hxy]
      refine List.Pairwise.cons ?_ (ih hys)
      intro z hz
      have hz3 : z ∈ x :: ys := (insertItem_perm x ys).mem_iff.mp hz
      rcases List.mem_cons.mp hz3 with rfl | hz4
      · rcases itemLe_total z y with h1 | h2
        · exact absurd h1 hxy
        · exact h2
      · exact hy z hz4

/-- The sort output is sorted under the comparator relation. -/
theorem sortItems_pairwise (l : List RecurringItem) :
    (sortItems l).Pairwise fun a b => itemLe a b = true := by
  induction l with
  | nil => simp [sortItems]
  | cons x xs ih =>
    rw [sortItems]
    exact pairwise_insertItem x (sortItems xs) ih

/-- The boolean predicate selecting the items of one date-key class, used
to state stability of the sort. -/
def keyFilter (k : Option String) : RecurringItem → Bool :=
  fun a => decide (a.predicted_next_date = k)

/-- Inserting an item of a different key class does not disturb the class. -/
theorem filter_insertItem_of_ne (x : RecurringItem) (l : List RecurringItem)
    (k : Option String) (hx : ¬ x.predicted_next_date = k) :
    (insertItem x l).filter (keyFilter k) = l.filter (keyFilter k) := by
  induction l with
  | nil => simp [insertItem, keyFilter, hx]
  | cons y ys ih =>
    rw [insertItem]
    by_cases hxy : itemLe x y = true
    · rw [if_pos hxy]
      simp [List.filter_cons, keyFilter, hx]
    · rw [if_neg hxy]
      by_cases hpy : y.predicted_next_date = k
      · simp [List.filter_cons, keyFilter, hpy, ih]
      · simp [List.filter_cons, keyFilter, hpy, ih]

/-- Inserting an item of a key class puts it exactly at the front of the
class: the comparator never moves it past an item of the same class. -/
theorem filter_insertItem_of_eq (x : RecurringItem) (l : List RecurringItem)
    (k : Option String) (hx : x.predicted_next_date = k) :
    (insertItem x l).filter (keyFilter k) = x :: l.filter (keyFilter k) := by
  induction l with
  | nil => simp [insertItem, List.filter_cons, keyFilter, hx]
  | cons y ys ih =>
    rw [insertItem]
    by_cases hxy : itemLe x y = true
    · rw [if_pos hxy]
      simp [List.filter_cons, keyFilter, hx]
    · rw [if_neg hxy]
      have hyk : ¬ y.predicted_next_date = k := by
        intro hk
        exact hxy (itemLe_of_key_eq (by rw [hx, hk]))
      simp [List.filter_cons, keyFilter, hyk, ih]

/-- Stability: the sort preserves the relative order inside every class of
items sharing a date key (hence also inside the undated class). -/
theorem sortItems_filter (l : List RecurringItem) (k : Option String) :
    (sortItems l).filter (keyFilter k) = l.filter (keyFilter k) := by
  induction l with
  | nil => rfl
  | cons x xs ih =>
    rw [sortItems]
    by_cases hx : x.predicted_next_date = k
    · rw [filter_insertItem_of_eq x (sortItems xs) k hx, ih]
      simp [List.filter_cons, keyFilter, hx]
    · rw [filter_insertItem_of_ne x (sortItems xs) k hx, ih]
      simp [List.filter_cons, keyFilter, hx]

/-! ## Facts feeding the formatter claims -/

/-- The or-null normalization never produces a present empty string. -/
theorem orNull_ne_some_empty (o : Option String) : orNull o ≠ some "" := by
  cases o with
  | none => simp [orNull]
  | some s =>
    by_cases h : s = "" <;> simp [orNull, h]

/-- A normalized item never carries a present empty date. -/
theorem pickFields_date_ne_empty (s : RawStream) :
    (pickFields s).predicted_next_date ≠ some "" :=
  orNull_ne_some_empty _

/-- Every combined item is a projection, so never carries a present empty
date. -/
theorem mem_combined_date {resp : RawResp} {it : RecurringItem}
    (hit : it ∈ combinedItems resp) : it.predicted_next_date ≠ some "" := by
  unfold combinedItems at hit
  rcases List.mem_append.mp hit with h | h <;>
  · obtain ⟨s, _, rfl⟩ := List.mem_map.mp h
    exact pickFields_date_ne_empty s

/-- On keys that are not a present empty string the comparator key map is
the identity. -/
theorem jsKey_eq_self {o : Option String} (h : o ≠ some "") : jsKey o = o := by
  cases o with
  | none => rfl
  | some s =>
    have hs : ¬ s = "" := fun he => h (by rw [he])
    simp [jsKey, hs]

/-- The ordering the specification asks of two output items A before B:
if both are dated then the dates compare lexicographically, and an
undated A forces B to be undated (undated items come strictly after all
dated ones). -/
def specOrdered (a b : RecurringItem) : Prop :=
  (∀ da db, a.predicted_next_date = some da → b.predicted_next_date = some db →
    da ≤ db)
  ∧ (a.predicted_next_date = none → b.predicted_next_date = none)

/-- On items whose dates are never a present empty string, the comparator
relation implies the specification ordering. -/
theorem specOrdered_of_itemLe {a b : RecurringItem}
    (ha : a.predicted_next_date ≠ some "") (hb : b.predicted_next_date ≠ some "")
    (hle : itemLe a b = true) : specOrdered a b := by
  unfold itemLe at hle
  rw [jsKey_eq_self ha, jsKey_eq_self hb] at hle
  constructor
  · intro da db hda hdb
    rw [hda, hdb] at hle
    exact of_decide_eq_true hle
  · intro hda
    rw [hda] at hle
    cases hbd : b.predicted_next_date with
    | none => rfl
    | some s =>
      rw [hbd] at hle
      simp [optStrLe] at hle

/-! ## Claim theorems about the formatter -/

/-- C1: toRecurringItems retains exactly the streams whose activity flag
is truthy, drawing them from both the inflow list and the outflow list:
its output is a permutation of the projections of the active streams of
the two lists, and any active stream of either list contributes its
projection to the output. -/
theorem toRecurringItems_active_merge (resp : RawResp) :
    List.Perm (toRecurringItems resp)
      (((inflowArr resp).filter isActiveTruthy
        ++ (outflowArr resp).filter isActiveTruthy).map pickFields)
    ∧ ∀ s : RawStream, isActiveTruthy s = true →
        s ∈ inflowArr resp ∨ s ∈ outflowArr resp →
        pickFields s ∈ toRecurringItems resp := by
  have hperm : List.Perm (toRecurringItems resp) (combinedItems resp) :=
    sortItems_perm _
  have heq : combinedItems resp
      = ((inflowArr resp).filter isActiveTruthy
          ++ (outflowArr resp).filter isActiveTruthy).map pickFields := by
    unfold combinedItems active inflowArr outflowArr
    rw [List.map_append]
  refine ⟨heq ▸ hperm, ?_⟩
  intro s hs hm
  have hmem : pickFields s ∈ combinedItems resp := by
    unfold combinedItems active
    rcases hm with h | h
    · refine List.mem_append_left _ ?_
      exact List.mem_map_of_mem _ (List.mem_filter.mpr ⟨h, hs⟩)
    · refine List.mem_append_right _ ?_
      exact List.mem_map_of_mem _ (List.mem_filter.mpr ⟨h, hs⟩)
  exact hperm.mem_iff.mpr hmem

/-- Witness for C1: a lone active outflow stream lands in the output. -/
def sOnly : RawStream :=
  { account_id := none, average_amount := none, last_amount := none,
    merchant_name := none, description := none, frequency := none,
    last_date := none, personal_finance_category := none,
    predicted_next_date := none, is_active := some true }

/-- C1 witness: the projection of a concrete active outflow stream is a
member of the formatter output. -/
theorem toRecurringItems_active_merge_witness :
    pickFields sOnly ∈ toRecurringItems (RawResp.obj none (some [sOnly])) :=
  (toRecurringItems_active_merge (RawResp.obj none (some [sOnly]))).2 sOnly rfl
    (Or.inr (by simp [outflowArr, streamsOutflow]))

/-- C2: the formatter output is ordered as specified (ascending
lexicographic dates, undated items strictly last) and the sort is stable:
within every class of items sharing the same date key, the output order
equals the pre-sort (input) order. -/
theorem toRecurringItems_sorted_stable (resp : RawResp) :
    (toRecurringItems resp).Pairwise specOrdered
    ∧ ∀ k : Option String,
        (toRecurringItems resp).filter (keyFilter k)
          = (combinedItems resp).filter (keyFilter k) := by
  constructor
  · have hp := sortItems_pairwise (combinedItems resp)
    refine List.Pairwise.imp_of_mem ?_ hp
    intro a b ha hb hle
    have ha2 : a ∈ combinedItems resp :=
      (sortItems_perm (combinedItems resp)).mem_iff.mp ha
    have hb2 : b ∈ combinedItems resp :=
      (sortItems_perm (combinedItems resp)).mem_iff.mp hb
    exact specOrdered_of_itemLe (mem_combined_date ha2) (mem_combined_date hb2) hle
  · exact fun k => sortItems_filter (combinedItems resp) k

/-- C6 counterexample: a payload that misses only the outflow list but
carries an active inflow stream yields that stream, not the empty
sequence the claim predicts for any payload missing either list. -/
theorem toRecurringItems_missing_list_cex :
    toRecurringItems (RawResp.obj (some [sOnly]) none) = [pickFields sOnly]
    ∧ toRecurringItems (RawResp.obj (some [sOnly]) none) ≠ [] := by
  exact ⟨rfl, by decide⟩

/-- C6 as amended: the formatter never fails; an absent or non-object
payload yields the empty sequence, as does an object missing both lists,
and each individually missing list is treated as an empty list (so a
payload missing only one list still yields the other list's active
streams). -/
theorem toRecurringItems_malformed (i o : Option (List RawStream)) :
    toRecurringItems RawResp.absent = []
    ∧ toRecurringItems RawResp.prim = []
    ∧ toRecurringItems (RawResp.obj none none) = []
    ∧ toRecurringItems (RawResp.obj none o) = toRecurringItems (RawResp.obj (some []) o)
    ∧ toRecurringItems (RawResp.obj i none) = toRecurringItems (RawResp.obj i (some [])) :=
  ⟨rfl, rfl, rfl, rfl, rfl⟩

/-- C9: the derived amount prefers average_amount.amount, falls back to
last_amount.amount, and defaults to zero when both are absent. -/
theorem pickFields_amount (s : RawStream) :
    (∀ q, s.average_amount.bind AmountObj.amount = some q →
      (pickFields s).average_amount.amount = q)
    ∧ (s.average_amount.bind AmountObj.amount = none →
        ∀ q, s.last_amount.bind AmountObj.amount = some q →
        (pickFields s).average_amount.amount = q)
    ∧ (s.average_amount.bind AmountObj.amount = none →
        s.last_amount.bind AmountObj.amount = none →
        (pickFields s).average_amount.amount = 0) := by
  refine ⟨?_, ?_, ?_⟩
  · intro q hq
    simp [pickFields, rawAmount, hq]
  · intro h1 q hq
    simp [pickFields, rawAmount, h1, hq]
  · intro h1 h2
    simp [pickFields, rawAmount, h1, h2]

/-- A stream carrying an average amount of 9.99. -/
def sAvg : RawStream :=
  { sOnly with average_amount := some { amount := some 9.99 } }

/-- A stream carrying only a last amount of 5. -/
def sLast : RawStream :=
  { sOnly with last_amount := some { amount := some 5 } }

/-- C9 witness: the three concrete examples of the claim. -/
theorem pickFields_amount_witness :
    (pickFields sAvg).average_amount.amount = 9.99
    ∧ (pickFields sLast).average_amount.amount = 5
    ∧ (pickFields sOnly).average_amount.amount = 0 :=
  ⟨(pickFields_amount sAvg).1 9.99 rfl,
   (pickFields_amount sLast).2.1 rfl 5 rfl,
   (pickFields_amount sOnly).2.2 rfl rfl⟩

/-! ## Claim theorems about the cache -/

/-- A store holding, for identity u, an entry with an array items field
and the numeric timestamp zero. -/
def storeZeroTs : CacheStore :=
  fun k => if k = cacheKey "u"
    then some (StoredVal.record (StoredItems.arr []) (JsTs.num 0))
    else none

/-- A store holding, for identity u, an entry with an array items field
and a truthy non-numeric timestamp whose numeric coercion is NaN (for
example the string value abc). -/
def storeNanTs : CacheStore :=
  fun k => if k = cacheKey "u"
    then some (StoredVal.record (StoredItems.arr []) (JsTs.nonNum true none))
    else none

/-- C3 counterexample, both directions of the truthiness divergence. A
record with an array items field and the numeric timestamp zero, read
while its age is within the TTL, yields a miss (the validation of the
source tests the timestamp for truthiness and rejects zero) although the
claim predicts a hit with the stored items. Conversely a record whose
timestamp is a truthy non-numeric value lacks a numeric timestamp field,
so the claim predicts a miss, yet the truthiness test passes and the NaN
age comparison is false, so the stored items are returned, at any clock
value whatsoever. -/
theorem readCache_ts_validation_cex :
    storeZeroTs (cacheKey "u")
      = some (StoredVal.record (StoredItems.arr []) (JsTs.num 0))
    ∧ (0 : Int) - 0 ≤ CACHE_TTL_MS
    ∧ readCache storeZeroTs 0 "u" = none
    ∧ storeNanTs (cacheKey "u")
      = some (StoredVal.record (StoredItems.arr []) (JsTs.nonNum true none))
    ∧ readCache storeNanTs 777777777777 "u" = some [] := by
  refine ⟨by simp [storeZeroTs], by decide, ?_, by simp [storeNanTs], ?_⟩
  · simp [readCache, storeZeroTs, tsTruthy]
  · simp [readCache, storeNanTs, tsTruthy, tsExpired]

/-- C3 as amended: readCache returns the stored items exactly when the
slot holds a record with an array items field and a truthy timestamp
field that the coerced age test does not reject; it returns a miss in
every other case (no slot, corrupt slot, falsy or non-array items field,
falsy timestamp - absent, zero or another falsy value - or a coerced age
strictly exceeding the TTL, where a NaN coercion never exceeds). -/
theorem readCache_valid_iff (st : CacheStore) (uid : String) (now : Int) :
    (∀ l ts, st (cacheKey uid) = some (StoredVal.record (StoredItems.arr l) ts) →
        tsTruthy ts = true → tsExpired now ts = false → readCache st now uid = some l)
    ∧ (readCache st now uid = none ↔
        st (cacheKey uid) = none
        ∨ ∃ v, st (cacheKey uid) = some v ∧ validFreshEntry v now = false) := by
  constructor
  · intro l ts hslot ht hfresh
    simp [readCache, hslot, ht, hfresh]
  · cases hslot : st (cacheKey uid) with
    | none => simp [readCache, hslot]
    | some v =>
      simp only [readCache, hslot, Option.some.injEq, false_or]
      cases v with
      | corrupt => simp [validFreshEntry]
      | record items ts =>
        cases items with
        | missing => simp [validFreshEntry]
        | notArray => simp [validFreshEntry]
        | arr l =>
          by_cases ht : tsTruthy ts = false
          · simp [validFreshEntry, ht]
          · rw [Bool.not_eq_false] at ht
            by_cases hexp : tsExpired now ts = true
            · simp [validFreshEntry, ht, hexp]
            · rw [Bool.not_eq_true] at hexp
              simp [validFreshEntry, ht, hexp]

/-- C3 witness: a concrete fresh, valid slot is read back. -/
theorem readCache_valid_iff_witness :
    readCache
      (fun k => if k = cacheKey "u"
        then some (StoredVal.record (StoredItems.arr []) (JsTs.num 3))
        else none) 5 "u" = some [] :=
  (readCache_valid_iff
      (fun k => if k = cacheKey "u"
        then some (StoredVal.record (StoredItems.arr []) (JsTs.num 3))
        else none) "u" 5).1 [] (JsTs.num 3) (by simp) (by decide) (by decide)

/-- C4 counterexample: a write performed at clock value zero (the epoch
instant) produces an entry whose immediate read misses, because the
truthiness validation of readCache rejects the zero timestamp, although
the claim predicts that an immediate read within the TTL returns the
written items. -/
theorem writeCache_epoch_cex :
    (0 : Int) - 0 ≤ CACHE_TTL_MS
    ∧ readCache (writeCache (fun _ => none) "u" 0 []) 0 "u" = none := by
  refine ⟨by decide, ?_⟩
  simp [readCache, writeCache, tsTruthy]

/-- C4 as amended: for every nonzero write time, a write followed by a
read within the TTL returns exactly the written items, and a read more
than the TTL after the write misses regardless of the stored content. -/
theorem writeCache_readCache_roundTrip (st : CacheStore) (uid : String)
    (items : List RecurringItem) (tw tr : Int) (hw : tw ≠ 0) :
    (tr - tw ≤ CACHE_TTL_MS →
      readCache (writeCache st uid tw items) tr uid = some items)
    ∧ (CACHE_TTL_MS < tr - tw →
      readCache (writeCache st uid tw items) tr uid = none) := by
  constructor
  · intro hfresh
    simp [readCache, writeCache, tsTruthy, tsExpired, hw, not_lt.mpr hfresh]
  · intro hexp
    simp [readCache, writeCache, tsTruthy, tsExpired, hw, hexp]

/-- C4 witness: a concrete write at time 1 is read back at time 1, and
missed at a time more than the TTL later. -/
theorem writeCache_readCache_roundTrip_witness :
    readCache (writeCache (fun _ => none) "u" 1 []) 1 "u" = some []
    ∧ readCache (writeCache (fun _ => none) "u" 1 []) 50000000 "u" = none :=
  ⟨(writeCache_readCache_roundTrip (fun _ => none) "u" [] 1 1 (by decide)).1
      (by decide),
   (writeCache_readCache_roundTrip (fun _ => none) "u" [] 1 50000000 (by decide)).2
      (by decide)⟩

/-! ## Claim theorems about the page controller -/

/-- An absent optional string is falsy. -/
theorem strTruthy_none : strTruthy none = false := rfl

/-- C5: when the identity is present and the cache read yields a fresh
non-empty item list, the activation reaches the ready state with exactly
those items (items set, no token, no message, not loading, subscriptions
rendered) and makes no retrieve network call. -/
theorem activate_cacheHit_ready (uid : Option String) (st : CacheStore)
    (now : Int) (net : FetchResult) (l : List RecurringItem)
    (hu : strTruthy uid = true)
    (hc : readCache st now (uid.getD "") = some l) (hl : l ≠ []) :
    (activate uid now st net).fetched = false
    ∧ (activate uid now st net).state.subs = l
    ∧ (activate uid now st net).state.linkToken = none
    ∧ (activate uid now st net).state.message = ""
    ∧ (activate uid now st net).state.loading = false
    ∧ render (activate uid now st net).state = Rendered.subscriptions l := by
  cases l with
  | nil => exact absurd rfl hl
  | cons a as =>
    simp [activate, hu, hc, render, strTruthy_none]

/-- A concrete normalized item used by the controller witnesses. -/
def itemSpotify : RecurringItem :=
  { account_id := some "a1", average_amount := { amount := 9.99 },
    description := "Spotify", frequency := some "MONTHLY",
    last_date := some "2025-08-14",
    personal_finance_category := { detailed := none },
    predicted_next_date := some "2025-09-14" }

/-- A concrete store holding one fresh cache entry for identity u1. -/
def storeU1 : CacheStore :=
  fun k => if k = cacheKey "u1"
    then some (StoredVal.record (StoredItems.arr [itemSpotify]) (JsTs.num 100))
    else none

/-- C5 witness: identity u1 with a fresh one-item cache entry renders the
cached item and makes no network call. -/
theorem activate_cacheHit_ready_witness :
    (activate (some "u1") 200 storeU1 FetchResult.transportError).fetched = false
    ∧ (activate (some "u1") 200 storeU1 FetchResult.transportError).state.subs
        = [itemSpotify]
    ∧ (activate (some "u1") 200 storeU1 FetchResult.transportError).state.linkToken
        = none
    ∧ (activate (some "u1") 200 storeU1 FetchResult.transportError).state.message
        = ""
    ∧ (activate (some "u1") 200 storeU1 FetchResult.transportError).state.loading
        = false
    ∧ render (activate (some "u1") 200 storeU1 FetchResult.transportError).state
        = Rendered.subscriptions [itemSpotify] :=
  activate_cacheHit_ready (some "u1") storeU1 200 FetchResult.transportError
    [itemSpotify] (by decide) (by simp [readCache, storeU1]; decide) (by decide)

/-- C7 counterexample: with no identity the activation terminates showing
the default message box with the text Ready. rather than a box carrying
the text missing identity, so the claimed display text is wrong. -/
theorem activate_missing_identity_cex :
    render (activate none 0 (fun _ => none) FetchResult.otherTag).state
      = Rendered.messageBox "Ready."
    ∧ render (activate none 0 (fun _ => none) FetchResult.otherTag).state
      ≠ Rendered.messageBox "missing identity" := by
  exact ⟨rfl, by decide⟩

/-- C7 as amended: when no identity is resolvable the activation is
terminal with the default message box text Ready. (the missing identity
condition is only logged to the console), it never reads or writes the
cache, makes no network call, and leaves the state at the initial values
with loading cleared. -/
theorem activate_missing_identity (uid : Option String) (st : CacheStore)
    (now : Int) (net : FetchResult) (hu : strTruthy uid = false) :
    (activate uid now st net).fetched = false
    ∧ (activate uid now st net).cacheRead = false
    ∧ (activate uid now st net).store = st
    ∧ (activate uid now st net).state = { initialState with loading := false }
    ∧ render (activate uid now st net).state = Rendered.messageBox "Ready." := by
  refine ⟨?_, ?_, ?_, ?_, ?_⟩ <;>
    simp [activate, hu, render, initialState, strTruthy_none]

/-- C7 witness: the amended behavior at a concrete empty identity. -/
theorem activate_missing_identity_witness :
    (activate (some "") 7 storeU1 FetchResult.otherTag).fetched = false
    ∧ (activate (some "") 7 storeU1 FetchResult.otherTag).cacheRead = false
    ∧ (activate (some "") 7 storeU1 FetchResult.otherTag).store = storeU1
    ∧ (activate (some "") 7 storeU1 FetchResult.otherTag).state
        = { initialState with loading := false }
    ∧ render (activate (some "") 7 storeU1 FetchResult.otherTag).state
        = Rendered.messageBox "Ready." :=
  activate_missing_identity (some "") storeU1 7 FetchResult.otherTag (by decide)

/-- C8: a retrieve resolution carrying the link_token tag stores the token
in the state and leaves the displayed items exactly as they were (so a
non-empty list stays untouched); the cache is also left unchanged. -/
theorem fetchFromApi_linkToken_keeps_subs (uid : Option String) (now : Int)
    (st : CacheStore) (s : PageState) (tok : Option String)
    (hu : strTruthy uid = true) :
    (fetchFromApi uid now st s (FetchResult.linkTokenTag tok)).1.linkToken = tok
    ∧ (fetchFromApi uid now st s (FetchResult.linkTokenTag tok)).1.subs = s.subs
    ∧ (fetchFromApi uid now st s (FetchResult.linkTokenTag tok)).2 = st := by
  refine ⟨?_, ?_, ?_⟩ <;> simp [fetchFromApi, hu]

/-- C8 witness: a token resolution at a concrete non-empty display state
keeps the displayed item and records the token. -/
theorem fetchFromApi_linkToken_keeps_subs_witness :
    (fetchFromApi (some "u1") 0 storeU1
        { initialState with subs := [itemSpotify] }
        (FetchResult.linkTokenTag (some "tok1"))).1.linkToken = some "tok1"
    ∧ (fetchFromApi (some "u1") 0 storeU1
        { initialState with subs := [itemSpotify] }
        (FetchResult.linkTokenTag (some "tok1"))).1.subs
      = ({ initialState with subs := [itemSpotify] } : PageState).subs
    ∧ (fetchFromApi (some "u1") 0 storeU1
        { initialState with subs := [itemSpotify] }
        (FetchResult.linkTokenTag (some "tok1"))).2 = storeU1 :=
  fetchFromApi_linkToken_keeps_subs (some "u1") 0 storeU1
    { initialState with subs := [itemSpotify] } (some "tok1") (by decide)

/-- C10: a structurally valid, fresh cache entry whose items list is empty
is returned by readCache as the empty list, yet the activation treats it
as a miss: the retrieve network call is still made. -/
theorem activate_emptyFreshCache_fetches (uid : Option String)
    (st : CacheStore) (now t : Int) (net : FetchResult)
    (hu : strTruthy uid = true)
    (hslot : st (cacheKey (uid.getD ""))
      = some (StoredVal.record (StoredItems.arr []) (JsTs.num t)))
    (ht : t ≠ 0) (hfresh : now - t ≤ CACHE_TTL_MS) :
    readCache st now (uid.getD "") = some []
    ∧ (activate uid now st net).fetched = true := by
  have hr : readCache st now (uid.getD "") = some [] := by
    simp [readCache, hslot, tsTruthy, tsExpired, ht, not_lt.mpr hfresh]
  refine ⟨hr, ?_⟩
  simp [activate, hu, hr]

/-- A concrete store holding a fresh but empty cache entry for u1. -/
def storeEmptyU1 : CacheStore :=
  fun k => if k = cacheKey "u1"
    then some (StoredVal.record (StoredItems.arr []) (JsTs.num 100))
    else none

/-- C10 witness: the fresh empty entry is read back as an empty list and
the network call is still made. -/
theorem activate_emptyFreshCache_fetches_witness :
    readCache storeEmptyU1 200 ((some "u1" : Option String).getD "") = some []
    ∧ (activate (some "u1") 200 storeEmptyU1 FetchResult.otherTag).fetched = true :=
  activate_emptyFreshCache_fetches (some "u1") storeEmptyU1 200 100
    FetchResult.otherTag (by decide) (by simp [storeEmptyU1]) (by decide) (by decide)

end FinEquity
